import Mathlib

/-!
Shallow embedding of the goduckdb driver adapter (conn.go, stmt source file,
duckdb.go) for checking the natural-language specification.

Go strings are modelled as `List Char` (all relevant bytes are ASCII).
Machine integers (`int8` … `int64`) are carried as `Int`: none of the modelled
operations overflow them.  Native engine calls (duckdb_query,
duckdb_execute_prepared, the typed duckdb_bind_* family, duckdb_row_count,
duckdb_column_data …) are passed in as explicit oracle parameters, so every
definition stays executable.
-/

namespace GoDuckDB

/-- A `database/sql/driver.Value` as named in the driver's type switches:
the kinds with a case in `conn.interpolateParams` / `stmt.start` each get a
constructor, every other dynamic kind is `vOther` (the switch `default`),
and the untyped `nil` is `vNull`.  `vFloat64` carries the decimal text that
`strconv.AppendFloat(v, 'g', -1, 64)` produces for the IEEE-754 value:
floating-point formatting itself is not embedded, only the resulting text
travels through the interpolator. `vTime` carries `UnixMicro` of the
`time.Time` value; `Unix()` (seconds) is its floor division by 10^6. -/
inductive DVal where
  | vNull : DVal
  | vInt8 (v : Int) : DVal
  | vInt16 (v : Int) : DVal
  | vInt32 (v : Int) : DVal
  | vInt64 (v : Int) : DVal
  | vFloat64 (text : List Char) : DVal
  | vBool (b : Bool) : DVal
  | vTime (unixMicro : Int) : DVal
  | vString (s : List Char) : DVal
  | vOther : DVal
  deriving DecidableEq

/-- One byte's replacement in `escapeValue` (conn.go lines 338-357): the Go
case arms write the literal contents of the Go strings `"\\\\0"`, `"\\\\n"`,
`"\\\\r"`, `"\\\\Z"`, `"\\\\'"`, `"\\\""`, `"\\\\"`, i.e. two backslashes
before `0`, `n`, `r`, `Z` and the single quote, but a single backslash before
the double quote and for the backslash itself. -/
def escapeChar (c : Char) : List Char :=
  if c = Char.ofNat 0 then ['\\', '\\', '0']
  else if c = '\n' then ['\\', '\\', 'n']
  else if c = '\r' then ['\\', '\\', 'r']
  else if c = Char.ofNat 26 then ['\\', '\\', 'Z']
  else if c = '\'' then ['\\', '\\', '\'']
  else if c = '"' then ['\\', '"']
  else if c = '\\' then ['\\', '\\']
  else [c]

/-- `escapeValue` (conn.go): byte-wise replacement over the value. -/
def escapeValue : List Char → List Char
  | [] => []
  | c :: rest => escapeChar c ++ escapeValue rest

/-- The fragment `interpolateParams` appends for a text argument:
a single quote, the escaped value, a single quote (conn.go lines 319-322). -/
def quoteFragment (s : List Char) : List Char :=
  '\'' :: (escapeValue s ++ ['\''])

/-- The literal rendering one placeholder receives in `interpolateParams`
(conn.go lines 295-325): `nil` → `NULL`, the integer kinds →
`strconv.AppendInt` decimal text, float64 → the `strconv.AppendFloat` text
carried by the value, bool → `1`/`0`, `time.Time` → decimal `v.Unix()`
(Unix seconds), string → the quoted escaped fragment; the switch `default`
(any other kind) yields `driver.ErrSkip`, modelled as `none`. -/
def renderArg : DVal → Option (List Char)
  | .vNull => some ("NULL".data)
  | .vInt8 v => some ((toString v).data)
  | .vInt16 v => some ((toString v).data)
  | .vInt32 v => some ((toString v).data)
  | .vInt64 v => some ((toString v).data)
  | .vFloat64 t => some t
  | .vBool b => some (if b then ['1'] else ['0'])
  | .vTime m => some ((toString (Int.fdiv m 1000000)).data)
  | .vString s => some (quoteFragment s)
  | .vOther => none

/-- `strings.Count(query, "?")`: the number of `?` bytes. -/
def countQ : List Char → Nat
  | [] => 0
  | c :: rest => (if c = '?' then 1 else 0) + countQ rest

/-- The two non-success ways `interpolateParams` ends: `driver.ErrSkip`
(`skip`), or the out-of-range index panic Go would raise were the scan to
outrun the argument list (`range`; unreachable behind the placeholder-count
precheck). -/
inductive IErr where
  | skip : IErr
  | range : IErr
  deriving DecidableEq

/-- The scanning loop of `interpolateParams` (conn.go lines 283-326): copy
bytes up to each `?`, replace the `?` by the next argument's rendering, stop
with `ErrSkip` on an argument the type switch does not recognize.  The Go
loop copies whole segments found with `strings.IndexByte`; byte-at-a-time
copying is the same function.  Returns the built buffer and the arguments
not yet consumed. -/
def scanInterp : List Char → List DVal → Except IErr (List Char × List DVal)
  | [], args => .ok ([], args)
  | c :: rest, args =>
    if c = '?' then
      match args with
      | [] => .error .range
      | a :: moreArgs =>
        match renderArg a with
        | none => .error .skip
        | some lit =>
          match scanInterp rest moreArgs with
          | .error e => .error e
          | .ok (buf, rem) => .ok (lit ++ buf, rem)
    else
      match scanInterp rest args with
      | .error e => .error e
      | .ok (buf, rem) => .ok (c :: buf, rem)

/-- `conn.interpolateParams` (conn.go lines 275-333): `ErrSkip` when the
`?` count differs from the argument count, then the scan, then `ErrSkip`
again if arguments were left unconsumed. -/
def interpolateParams (query : List Char) (args : List DVal) : Except IErr (List Char) :=
  if countQ query ≠ args.length then .error .skip
  else
    match scanInterp query args with
    | .error e => .error e
    | .ok (buf, rem) => if rem.isEmpty then .ok buf else .error .skip

/-- The segments of the query between its `?` placeholders, in order
(`n` placeholders give `n + 1` segments, possibly empty). -/
def splitQ : List Char → List (List Char)
  | [] => [[]]
  | c :: rest =>
    if c = '?' then [] :: splitQ rest
    else
      match splitQ rest with
      | [] => [[c]]
      | seg :: more => (c :: seg) :: more

/-- Interleave query segments with the literal renderings:
`seg₀ ++ lit₀ ++ seg₁ ++ lit₁ ++ … ++ segₙ`. -/
def joinI : List (List Char) → List (List Char) → List Char
  | [], _ => []
  | seg :: more, [] => seg ++ joinI more []
  | seg :: more, lit :: lits => seg ++ (lit ++ joinI more lits)

/-- The native column type tag (`duckdb_column_type`).  The tags with a case
in `duckdbRows.Next` (conn.go lines 78-120) get constructors; `other n`
stands for every remaining tag of the native enum (UTINYINT, HUGEINT,
INTERVAL, …), which no case of the Go switch matches. -/
inductive DTy where
  | invalid : DTy
  | boolean : DTy
  | tinyint : DTy
  | smallint : DTy
  | integer : DTy
  | bigint : DTy
  | float : DTy
  | double : DTy
  | date : DTy
  | varchar : DTy
  | timestamp : DTy
  | other (tag : Nat) : DTy
  deriving DecidableEq

/-- One entry of a native column buffer, as the typed reinterpretation in
`Next` sees it.  Float payloads are carried as raw bit patterns.  `rDate`
carries the civil fields that the native `duckdb_from_date` returns for the
stored day number, `rTimestamp` those of `duckdb_from_timestamp` (these two
native conversions are outside the repository; their outputs are carried). -/
inductive RawCell where
  | rBool (b : Bool) : RawCell
  | rI8 (v : Int) : RawCell
  | rI16 (v : Int) : RawCell
  | rI32 (v : Int) : RawCell
  | rI64 (v : Int) : RawCell
  | rF32 (bits : Nat) : RawCell
  | rF64 (bits : Nat) : RawCell
  | rDate (year month day : Int) : RawCell
  | rTimestamp (year month day hour minute second micros : Int) : RawCell
  | rVarchar (s : List Char) : RawCell
  deriving DecidableEq

/-- A decoded `driver.Value` written into `dst` by `Next`:  scalars keep
their host type, date and timestamp become the `time.Date(…, time.UTC)`
calendar value (a date gets zero time-of-day components, conn.go lines
98-104), varchar becomes a Go string. -/
inductive OutVal where
  | oBool (b : Bool) : OutVal
  | oI8 (v : Int) : OutVal
  | oI16 (v : Int) : OutVal
  | oI32 (v : Int) : OutVal
  | oI64 (v : Int) : OutVal
  | oF32 (bits : Nat) : OutVal
  | oF64 (bits : Nat) : OutVal
  | oTime (year month day hour minute second micros : Int) : OutVal
  | oStr (s : List Char) : OutVal
  deriving DecidableEq

/-- What the switch in `Next` does for a column type tag: `DUCKDB_TYPE_INVALID`
returns the `invalid data type` error (`abort`); the ten decodable tags write
`dst[i]` (`writeCol`); any other tag matches no case of the Go switch, so the
loop moves on leaving `dst[i]` untouched (`skipCol`). -/
inductive ColAct where
  | abort : ColAct
  | skipCol : ColAct
  | writeCol : ColAct
  deriving DecidableEq

/-- The dispatch of the `switch colType` in `duckdbRows.Next`. -/
def tyAct : DTy → ColAct
  | .invalid => .abort
  | .other _ => .skipCol
  | _ => .writeCol

/-- The typed read `dst[i] = (*[1 << 31]T)(unsafe.Pointer(colData))[cursor]`
for each decodable tag.  A tag/cell mismatch would be a raw-memory
reinterpretation in C; well-formed results never produce one, and the model
returns an arbitrary junk value there. -/
def readCell : DTy → RawCell → OutVal
  | .boolean, .rBool b => .oBool b
  | .tinyint, .rI8 v => .oI8 v
  | .smallint, .rI16 v => .oI16 v
  | .integer, .rI32 v => .oI32 v
  | .bigint, .rI64 v => .oI64 v
  | .float, .rF32 bits => .oF32 bits
  | .double, .rF64 bits => .oF64 bits
  | .date, .rDate y m d => .oTime y m d 0 0 0 0
  | .timestamp, .rTimestamp y m d hh mi ss mu => .oTime y m d hh mi ss mu
  | .varchar, .rVarchar s => .oStr s
  | _, _ => .oBool false

/-- One native result column: its declared type tag and its contiguous
buffer (`duckdb_column_data`), holding one cell per row. -/
structure Column where
  ty : DTy
  cells : List RawCell
  deriving DecidableEq

/-- A native result (`duckdb_result`): columns in native order plus
`duckdb_row_count`. -/
structure DuckResult where
  cols : List Column
  rowCount : Nat
  deriving DecidableEq

/-- The column loop of `Next` (conn.go lines 75-121): `i` is the current
column index, `cursor` the row offset; `DUCKDB_TYPE_INVALID` aborts the row,
a decodable tag writes `dst[i]`, an unmatched tag falls through the switch. -/
def decodeCols : List Column → Nat → Nat → List OutVal → Except Unit (List OutVal)
  | [], _, _, dst => .ok dst
  | col :: rest, i, cursor, dst =>
    match tyAct col.ty with
    | .abort => .error ()
    | .skipCol => decodeCols rest (i + 1) cursor dst
    | .writeCol =>
        decodeCols rest (i + 1) cursor
          (dst.set i (readCell col.ty (col.cells.getD cursor (.rBool false))))

/-- The error-free value of the column loop: defined like `decodeCols` but
total (the `abort` arm, unreachable when no column tag is INVALID, skips). -/
def decodeColsOk : List Column → Nat → Nat → List OutVal → List OutVal
  | [], _, _, dst => dst
  | col :: rest, i, cursor, dst =>
    match tyAct col.ty with
    | .abort => decodeColsOk rest (i + 1) cursor dst
    | .skipCol => decodeColsOk rest (i + 1) cursor dst
    | .writeCol =>
        decodeColsOk rest (i + 1) cursor
          (dst.set i (readCell col.ty (col.cells.getD cursor (.rBool false))))

/-- The state of a `duckdbRows` value: `res` is the owned native result
(`none` after `Close` sets `r.r = nil`), `cursor` the current row offset. -/
structure RowsState where
  res : Option DuckResult
  cursor : Nat
  deriving DecidableEq

/-- The outcome of one `duckdbRows.Next` call: a filled destination row,
`io.EOF`, the `invalid data type` error, or a Go panic (misuse). -/
inductive NextRes where
  | ok (dst : List OutVal) : NextRes
  | eof : NextRes
  | errInvalidType : NextRes
  | panicked (msg : String) : NextRes
  deriving DecidableEq

/-- `duckdbRows.Next` (conn.go lines 64-126): panic on closed rows; `io.EOF`
without any mutation once `cursor >= row_count`; otherwise decode the row
and, only on success, advance the cursor by one. -/
def rowsNext (rs : RowsState) (dst : List OutVal) : NextRes × RowsState :=
  match rs.res with
  | none => (.panicked "database/sql/driver: misuse of duckdb driver: Next of closed rows", rs)
  | some r =>
    if r.rowCount ≤ rs.cursor then (.eof, rs)
    else
      match decodeCols r.cols 0 rs.cursor dst with
      | .error _ => (.errInvalidType, rs)
      | .ok out => (.ok out, { rs with cursor := rs.cursor + 1 })

/-- The rows state after `k` successive `Next` calls on a fresh cursor over
result `r` (the destination buffer does not influence control flow). -/
def advanceN (r : DuckResult) (dst : List OutVal) : Nat → RowsState
  | 0 => ⟨some r, 0⟩
  | k + 1 => (rowsNext (advanceN r dst k) dst).2

/-- The misuse messages of the driver, verbatim from the source. -/
def msgCloseActiveRows : String :=
  "database/sql/driver: misuse of duckdb driver: Close with active Rows"

/-- Message of `stmt.Close` on an already-closed statement. -/
def msgDoubleClose : String :=
  "database/sql/driver: misuse of duckdb driver: double Close of Stmt"

/-- Panic message of `stmt.Exec` on a closed statement. -/
def msgExecAfterClose : String :=
  "database/sql/driver: misuse of duckdb driver: Exec after Close"

/-- Panic message of `stmt.Exec` while rows are open. -/
def msgExecActiveRows : String :=
  "database/sql/driver: misuse of duckdb driver: Exec with active Rows"

/-- Panic message of `stmt.Query` on a closed statement. -/
def msgQueryAfterClose : String :=
  "database/sql/driver: misuse of duckdb driver: Query after Close"

/-- Panic message of `stmt.Query` while rows are open. -/
def msgQueryActiveRows : String :=
  "database/sql/driver: misuse of duckdb driver: Query with active Rows"

/-- Panic message of `duckdbRows.Close` on already-closed rows. -/
def msgRowsDoubleClose : String :=
  "database/sql/driver: misuse of duckdb driver: Close of already closed rows"

/-- The observable state of a `stmt` value: its `closed` and `rows` flags.
The native prepared-statement handle's data (parameter count, bind and
execute outcomes) is passed to the operations as oracle arguments. -/
structure StmtState where
  closed : Bool
  rows : Bool
  deriving DecidableEq

/-- Whether an argument kind has a case in the type switch of `stmt.start`
(source lines 55-103): the eight typed kinds do; an untyped `nil` and any
other dynamic kind fall to `default`, which returns `driver.ErrSkip`.
Each typed case dispatches to its native binder (int8 → duckdb_bind_int8,
…, float64 → duckdb_bind_double, bool → duckdb_bind_boolean, time.Time →
duckdb_bind_timestamp at UnixMicro, string → duckdb_bind_varchar). -/
def isBindable : DVal → Bool
  | .vNull => false
  | .vOther => false
  | _ => true

/-- The outcome of `stmt.start`. -/
inductive StartRes where
  | ok : StartRes
  | arityMismatch (haveN wantN : Nat) : StartRes
  | couldNotBind : StartRes
  | skip : StartRes
  deriving DecidableEq

/-- The text of the arity error of `stmt.start`:
`fmt.Errorf("incorrect argument count for command: have %d want %d",
len(args), s.NumInput())`. -/
def arityMsg (haveN wantN : Nat) : String :=
  "incorrect argument count for command: have " ++ toString haveN ++
    " want " ++ toString wantN

/-- The binding loop of `stmt.start`: `i` is the 0-based loop index (native
binds use position `i + 1`), `bindOk pos arg` is whether the native typed
bind call at `pos` succeeds, and the second component records the native
bind calls issued, in order (a failing call is still issued). -/
def startGo (bindOk : Nat → DVal → Bool) :
    List DVal → Nat → List (Nat × DVal) → StartRes × List (Nat × DVal)
  | [], _, trace => (.ok, trace.reverse)
  | a :: rest, i, trace =>
    if isBindable a then
      if bindOk (i + 1) a then startGo bindOk rest (i + 1) ((i + 1, a) :: trace)
      else (.couldNotBind, ((i + 1, a) :: trace).reverse)
    else (.skip, trace.reverse)

/-- `stmt.start` (source lines 51-108): the arity check against
`s.NumInput()` (`np`) comes first and issues no bind call; then the binding
loop. -/
def stmtStart (np : Nat) (bindOk : Nat → DVal → Bool) (args : List DVal) :
    StartRes × List (Nat × DVal) :=
  if np ≠ args.length then (.arityMismatch args.length np, [])
  else startGo bindOk args 0 []

/-- An error returned (not panicked) by `stmt.Exec` / `stmt.Query`. -/
inductive StmtErr where
  | arityMismatch (haveN wantN : Nat) : StmtErr
  | couldNotBind : StmtErr
  | errSkip : StmtErr
  | engine (msg : String) : StmtErr
  deriving DecidableEq

/-- The outcome of a statement operation: a value, a returned error, or a
Go panic (the loud usage-error path of this driver). -/
inductive StmtRes (α : Type) where
  | ok (a : α) : StmtRes α
  | err (e : StmtErr) : StmtRes α
  | panicked (msg : String) : StmtRes α
  deriving DecidableEq

/-- `duckdb_value_int64(res, 0, 0)`: the affected-row aggregate read from
cell (0,0).  Modelled from the spec: the native accessor is outside the
repository; it reads the first cell of the first column as an int64. -/
def valueInt64 (r : DuckResult) : Int :=
  match r.cols with
  | [] => 0
  | col :: _ =>
    match col.cells.getD 0 (.rBool false) with
    | .rI64 v => v
    | _ => 0

/-- `stmt.Exec` (source lines 110-135): panics on a closed statement or with
active rows, runs `start`, then `duckdb_execute_prepared` (its outcome is
the oracle `execRes`); errors leave the flags untouched. -/
def stmtExec (st : StmtState) (np : Nat) (bindOk : Nat → DVal → Bool)
    (execRes : Except String DuckResult) (args : List DVal) :
    StmtRes Int × StmtState :=
  if st.closed then (.panicked msgExecAfterClose, st)
  else if st.rows then (.panicked msgExecActiveRows, st)
  else
    match (stmtStart np bindOk args).1 with
    | .arityMismatch h w => (.err (.arityMismatch h w), st)
    | .couldNotBind => (.err .couldNotBind, st)
    | .skip => (.err .errSkip, st)
    | .ok =>
      match execRes with
      | .error msg => (.err (.engine msg), st)
      | .ok r => (.ok (valueInt64 r), st)

/-- `stmt.Query` (source lines 137-158): panics on a closed statement or
with active rows, runs `start` (a `start` error leaves the flags untouched),
then sets `s.rows = true` and only then calls `duckdb_execute_prepared` —
an engine error is returned with `rows` still set. -/
def stmtQuery (st : StmtState) (np : Nat) (bindOk : Nat → DVal → Bool)
    (execRes : Except String DuckResult) (args : List DVal) :
    StmtRes RowsState × StmtState :=
  if st.closed then (.panicked msgQueryAfterClose, st)
  else if st.rows then (.panicked msgQueryActiveRows, st)
  else
    match (stmtStart np bindOk args).1 with
    | .arityMismatch h w => (.err (.arityMismatch h w), st)
    | .couldNotBind => (.err .couldNotBind, st)
    | .skip => (.err .errSkip, st)
    | .ok =>
      match execRes with
      | .error msg => (.err (.engine msg), { st with rows := true })
      | .ok r => (.ok ⟨some r, 0⟩, { st with rows := true })

/-- The outcome of a `Close` call: success, a returned usage error, or a
panic. -/
inductive CloseRes where
  | ok : CloseRes
  | err (msg : String) : CloseRes
  | panicked (msg : String) : CloseRes
  deriving DecidableEq

/-- `stmt.Close` (source lines 28-43): a usage error with active rows or
when already closed; otherwise sets `closed` and releases the handle. -/
def stmtClose (st : StmtState) : CloseRes × StmtState :=
  if st.rows then (.err msgCloseActiveRows, st)
  else if st.closed then (.err msgDoubleClose, st)
  else (.ok, { st with closed := true })

/-- `duckdbRows.Close` (conn.go lines 182-196): panics on a second close;
otherwise destroys the result, sets `r.r = nil` and, when the rows are tied
to a statement, clears that statement's `rows` flag. -/
def rowsClose (rs : RowsState) (tied : Option StmtState) :
    CloseRes × RowsState × Option StmtState :=
  match rs.res with
  | none => (.panicked msgRowsDoubleClose, rs, tied)
  | some _ => (.ok, ⟨none, rs.cursor⟩, tied.map (fun st => { st with rows := false }))

/-- The native engine's reply to `duckdb_query` for a submitted command
string: a result, or an error whose text `conn.exec` propagates verbatim. -/
inductive EngineReply where
  | success (r : DuckResult) : EngineReply
  | failure (errText : String) : EngineReply

/-- `conn.exec` (conn.go lines 260-271): submit the command string to the
native engine; on `DuckDBError` return the engine's error text. -/
def connRawExec (engine : List Char → EngineReply) (cmd : List Char) :
    Except String DuckResult :=
  match engine cmd with
  | .success r => .ok r
  | .failure t => .error t

/-- `duckdbResult`: the driver.Result carrying the affected-row count. -/
structure duckdbResult where
  ra : Int
  deriving DecidableEq

/-- `conn.Exec` (conn.go lines 198-208): calls `c.exec(query)` on the
caller's text directly — the `args` parameter is never used, no
interpolation happens on this path. -/
def connExec (engine : List Char → EngineReply) (query : List Char)
    (args : List DVal) : Except String duckdbResult :=
  match connRawExec engine query with
  | .error e => .error e
  | .ok res => .ok ⟨valueInt64 res⟩

/-- An error returned by `conn.query`: the interpolator's signal
(`driver.ErrSkip`), or the engine's error text. -/
inductive ConnQueryErr where
  | interp (e : IErr) : ConnQueryErr
  | engine (msg : String) : ConnQueryErr
  deriving DecidableEq

/-- `conn.query` (conn.go lines 246-258): interpolate first, submit the
interpolated string, wrap the result in a fresh standalone cursor. -/
def connQuery (engine : List Char → EngineReply) (query : List Char)
    (args : List DVal) : Except ConnQueryErr RowsState :=
  match interpolateParams query args with
  | .error e => .error (.interp e)
  | .ok s =>
    match connRawExec engine s with
    | .error t => .error (.engine t)
    | .ok res => .ok ⟨some res, 0⟩

/-- `conn.Prepare` (conn.go lines 214-222): calls `duckdb_prepare` without
looking at its return status (the Go code discards it) and returns a fresh
open statement with a nil error, whatever the text and whatever the native
status. -/
def connPrepare (cmd : List Char) (prepStatus : Bool) : StmtState × Option String :=
  (⟨false, false⟩, none)

/-- Modelled from the spec: the body scanner of a single-quoted SQL string
literal under the backslash-escape convention that `escapeValue`'s scheme
targets (a backslash escapes the following character; an unescaped single
quote closes the literal).  Input is the text after the opening quote;
returns what follows the closing quote, or `none` if the literal never
closes. -/
def scanQuoted : List Char → Option (List Char)
  | [] => none
  | c :: rest =>
    if c = '\\' then
      match rest with
      | [] => none
      | _ :: rest2 => scanQuoted rest2
    else if c = '\'' then some rest
    else scanQuoted rest

/-- Modelled from the spec: a fragment is syntactically valid as one
single-quoted string literal (backslash-escape convention) when it opens
with a quote and the literal closes exactly at the fragment's end. -/
def isValidSingleQuoted : List Char → Bool
  | '\'' :: rest =>
    match scanQuoted rest with
    | some [] => true
    | _ => false
  | _ => false

/-- Modelled from the spec: the body scanner under the standard-SQL
convention (no backslash escapes; a doubled quote stands for a quote). -/
def scanQuotedStd : List Char → Option (List Char)
  | [] => none
  | c :: rest =>
    if c = '\'' then
      match rest with
      | '\'' :: rest2 => scanQuotedStd rest2
      | _ => some rest
    else scanQuotedStd rest

/-- Modelled from the spec: validity as one single-quoted literal under the
standard-SQL quote-doubling convention. -/
def isValidSingleQuotedStd : List Char → Bool
  | '\'' :: rest =>
    match scanQuotedStd rest with
    | some [] => true
    | _ => false
  | _ => false

/-- A constantly succeeding native-bind oracle. -/
def allBindsOk : Nat → DVal → Bool := fun _ _ => true

/-- An engine oracle that accepts exactly the interpolated text
`SELECT 5` and reports a parse error on anything else (in particular on the
raw text `SELECT ?`). -/
def engineC1 : List Char → EngineReply := fun cmd =>
  if cmd = ("SELECT 5".data) then .success ⟨[], 1⟩
  else .failure "Parser Error: syntax error at or near \"?\""

/-- C1: the claim says both `conn.Exec` and `conn.Query` submit the
interpolated query.  At query `SELECT ?` with argument `int64 5` the
interpolator produces `SELECT 5`, `conn.Query` submits that interpolated
text (the engine oracle accepts only it), but `conn.Exec` submits the raw
`SELECT ?` — the engine's parse error comes back — and its outcome is
independent of the argument list altogether. -/
theorem connExec_c1_bug :
    interpolateParams ("SELECT ?".data) [DVal.vInt64 5] = .ok ("SELECT 5".data) ∧
    connExec engineC1 ("SELECT ?".data) [DVal.vInt64 5] =
      .error "Parser Error: syntax error at or near \"?\"" ∧
    connQuery engineC1 ("SELECT ?".data) [DVal.vInt64 5] = .ok ⟨some ⟨[], 1⟩, 0⟩ ∧
    ∀ args : List DVal,
      connExec engineC1 ("SELECT ?".data) args = connExec engineC1 ("SELECT ?".data) [] :=
  ⟨rfl, rfl, rfl, fun _ => rfl⟩

/-- C2: at the failing input — an open statement, zero parameters, all binds
succeeding, `duckdb_execute_prepared` reporting an error — `stmt.Query`
returns the engine error but leaves `rows = true` (it sets the flag before
executing and never clears it on the error path), so a fresh `Query` on the
same statement panics as a usage error and `Close` fails too: the statement
is not left structurally `Open` as the claim states. -/
theorem stmtQuery_c2_bug :
    stmtQuery ⟨false, false⟩ 0 allBindsOk (.error "Binder Error: no such table") [] =
      (.err (.engine "Binder Error: no such table"), ⟨false, true⟩) ∧
    (stmtQuery ⟨false, true⟩ 0 allBindsOk (.error "Binder Error: no such table") []).1 =
      .panicked msgQueryActiveRows ∧
    stmtClose ⟨false, true⟩ = (.err msgCloseActiveRows, ⟨false, true⟩) :=
  ⟨rfl, rfl, rfl⟩

/-- C3: at the failing input — a text argument that is one single quote —
`escapeValue` emits two backslashes and the quote (the Go case writes the
string literal `"\\\\'"`), so the interpolated fragment is `'\\''`: after
the escaped backslash pair the quote is unescaped and terminates the
literal early.  The fragment is invalid under the backslash-escape
convention the scheme targets and under the standard quote-doubling
convention alike, while a harmless character yields a valid literal. -/
theorem escapeValue_c3_bug :
    escapeValue ['\''] = ['\\', '\\', '\''] ∧
    interpolateParams ("?".data) [DVal.vString ['\'']] = .ok (quoteFragment ['\'']) ∧
    isValidSingleQuoted (quoteFragment ['\'']) = false ∧
    isValidSingleQuotedStd (quoteFragment ['\'']) = false ∧
    isValidSingleQuoted (quoteFragment ['a']) = true :=
  ⟨rfl, rfl, rfl, rfl, rfl⟩

/-- C10: `conn.Prepare` returns a fresh open statement and a nil error for
every command text and every native prepare status — the status is
discarded, so a preparation failure is never surfaced at prepare time. -/
theorem connPrepare_c10 :
    ∀ (cmd : List Char) (status : Bool),
      connPrepare cmd status = (⟨false, false⟩, none) :=
  fun _ _ => rfl

/-- The switch of `Next` aborts precisely on the INVALID tag. -/
theorem tyAct_abort_iff (t : DTy) : tyAct t = ColAct.abort ↔ t = DTy.invalid := by
  cases t <;> simp [tyAct]

/-- When no column tag is INVALID, the column loop succeeds and computes
its total variant. -/
theorem decodeCols_eq_ok (cols : List Column) :
    ∀ (i cursor : Nat) (dst : List OutVal),
      (∀ col ∈ cols, col.ty ≠ DTy.invalid) →
      decodeCols cols i cursor dst = .ok (decodeColsOk cols i cursor dst) := by
  induction cols with
  | nil => intro i cursor dst _; rfl
  | cons col rest ih =>
    intro i cursor dst h
    have hcol : col.ty ≠ DTy.invalid := h col (List.mem_cons_self _ _)
    have hrest : ∀ c ∈ rest, c.ty ≠ DTy.invalid :=
      fun c hc => h c (List.mem_cons_of_mem _ hc)
    cases hact : tyAct col.ty with
    | abort => exact absurd ((tyAct_abort_iff col.ty).1 hact) hcol
    | skipCol => simp [decodeCols, decodeColsOk, hact, ih _ _ _ hrest]
    | writeCol => simp [decodeCols, decodeColsOk, hact, ih _ _ _ hrest]

/-- A column with the INVALID tag anywhere in the list makes the column
loop return the error. -/
theorem decodeCols_eq_error (cols : List Column) :
    ∀ (i cursor : Nat) (dst : List OutVal),
      (∃ col ∈ cols, col.ty = DTy.invalid) →
      decodeCols cols i cursor dst = .error () := by
  induction cols with
  | nil =>
    intro i cursor dst h
    exact absurd h (by simp)
  | cons col rest ih =>
    intro i cursor dst h
    rcases h with ⟨c, hc, hty⟩
    rcases List.mem_cons.1 hc with hceq | hcmem
    · subst hceq
      simp [decodeCols, tyAct, hty]
    · cases hact : tyAct col.ty with
      | abort => simp [decodeCols, hact]
      | skipCol =>
        simp only [decodeCols, hact]
        exact ih _ _ _ ⟨c, hcmem, hty⟩
      | writeCol =>
        simp only [decodeCols, hact]
        exact ih _ _ _ ⟨c, hcmem, hty⟩

/-- The column loop starting at column index `i` never writes a
destination slot below `i`. -/
theorem decodeColsOk_getElem?_lt (cols : List Column) :
    ∀ (i cursor m : Nat) (dst : List OutVal), m < i →
      (decodeColsOk cols i cursor dst)[m]? = dst[m]? := by
  induction cols with
  | nil => intros; rfl
  | cons col rest ih =>
    intro i cursor m dst hm
    cases hact : tyAct col.ty with
    | abort =>
      simp only [decodeColsOk, hact]
      exact ih _ _ _ _ (Nat.lt_succ_of_lt hm)
    | skipCol =>
      simp only [decodeColsOk, hact]
      exact ih _ _ _ _ (Nat.lt_succ_of_lt hm)
    | writeCol =>
      simp only [decodeColsOk, hact]
      rw [ih _ _ _ _ (Nat.lt_succ_of_lt hm)]
      exact List.getElem?_set_ne (Nat.ne_of_lt hm).symm

/-- A destination slot whose column's tag matches no case of the switch is
left exactly as the caller passed it. -/
theorem decodeColsOk_getElem?_skip (cols : List Column) :
    ∀ (i cursor : Nat) (dst : List OutVal) (j : Nat) (hj : j < cols.length),
      tyAct (cols.get ⟨j, hj⟩).ty = ColAct.skipCol →
      (decodeColsOk cols i cursor dst)[i + j]? = dst[i + j]? := by
  induction cols with
  | nil =>
    intro _ _ _ j hj
    exact absurd hj (by simp)
  | cons col rest ih =>
    intro i cursor dst j hj hskip
    cases j with
    | zero =>
      have hact : tyAct col.ty = ColAct.skipCol := hskip
      simp only [decodeColsOk, hact, Nat.add_zero]
      exact decodeColsOk_getElem?_lt rest _ _ _ _ (Nat.lt_succ_self i)
    | succ j' =>
      have hj' : j' < rest.length := Nat.lt_of_succ_lt_succ hj
      have hskip' : tyAct (rest.get ⟨j', hj'⟩).ty = ColAct.skipCol := hskip
      have hidx : i + (j' + 1) = (i + 1) + j' := by omega
      cases hact : tyAct col.ty with
      | abort =>
        simp only [decodeColsOk, hact, hidx]
        exact ih _ _ _ _ hj' hskip'
      | skipCol =>
        simp only [decodeColsOk, hact, hidx]
        exact ih _ _ _ _ hj' hskip'
      | writeCol =>
        simp only [decodeColsOk, hact, hidx]
        rw [ih _ _ _ _ hj' hskip']
        exact List.getElem?_set_ne (by omega)

/-- Iterating `Next` from a fresh cursor: after `k` calls the cursor stands
at `min k rowCount` — each successful call advanced it by exactly one, and
end-of-data calls left it unchanged. -/
theorem advanceN_eq (r : DuckResult) (dst : List OutVal)
    (hno : ∀ col ∈ r.cols, col.ty ≠ DTy.invalid) :
    ∀ k : Nat, advanceN r dst k = ⟨some r, min k r.rowCount⟩ := by
  intro k
  induction k with
  | zero => simp [advanceN]
  | succ k ih =>
    rw [advanceN, ih]
    by_cases hk : k < r.rowCount
    · have h1 : min k r.rowCount = k := Nat.min_eq_left (Nat.le_of_lt hk)
      have h2 : min (k + 1) r.rowCount = k + 1 := Nat.min_eq_left hk
      simp [rowsNext, h1, h2, Nat.not_le.2 hk, decodeCols_eq_ok r.cols 0 k dst hno]
    · have h1 : min k r.rowCount = r.rowCount := Nat.min_eq_right (Nat.le_of_not_lt hk)
      have h2 : min (k + 1) r.rowCount = r.rowCount := Nat.min_eq_right (by omega)
      simp [rowsNext, h1, h2]

/-- C4: on an open cursor over a result whose column tags all decode, a
`Next` call at offset `cursor < rowCount` returns row `cursor` (the decoded
column values at that offset, in native column order) and advances the
cursor by exactly one; a call at `cursor ≥ rowCount` reports end-of-data
without error and without touching the state; hence `k` repeated calls from
a fresh cursor leave it at `min k rowCount`, returning rows `0 ..
rowCount - 1` exactly once each and end-of-data ever after. -/
theorem rowsNext_c4 (r : DuckResult) (cur : Nat) (dst : List OutVal)
    (hno : ∀ col ∈ r.cols, col.ty ≠ DTy.invalid) :
    (cur < r.rowCount →
      rowsNext ⟨some r, cur⟩ dst =
        (.ok (decodeColsOk r.cols 0 cur dst), ⟨some r, cur + 1⟩)) ∧
    (r.rowCount ≤ cur → rowsNext ⟨some r, cur⟩ dst = (.eof, ⟨some r, cur⟩)) ∧
    (∀ k : Nat, advanceN r dst k = ⟨some r, min k r.rowCount⟩) := by
  refine ⟨?_, ?_, advanceN_eq r dst hno⟩
  · intro h
    simp [rowsNext, Nat.not_le.2 h, decodeCols_eq_ok r.cols 0 cur dst hno]
  · intro h
    simp [rowsNext, h]

/-- Witness for C4: a one-column BIGINT result with two rows; the first
call returns row 0 and moves the cursor to 1. -/
theorem rowsNext_c4_witness :
    rowsNext ⟨some ⟨[⟨DTy.bigint, [RawCell.rI64 7, RawCell.rI64 8]⟩], 2⟩, 0⟩
        [OutVal.oBool false] =
      (.ok [OutVal.oI64 7],
        ⟨some ⟨[⟨DTy.bigint, [RawCell.rI64 7, RawCell.rI64 8]⟩], 2⟩, 1⟩) :=
  ((rowsNext_c4 ⟨[⟨DTy.bigint, [RawCell.rI64 7, RawCell.rI64 8]⟩], 2⟩ 0
      [OutVal.oBool false] (by decide)).1 (by decide)).trans (by decide)

/-- A one-row result whose single column carries a native tag that matches
no case of the decode switch (neither INVALID nor any decodable type). -/
def c5res : DuckResult := ⟨[⟨DTy.other 25, [RawCell.rBool true]⟩], 1⟩

/-- C5 counterexample: on a column whose native tag is outside the decode
table but is not the INVALID tag, `Next` does not fail with the invalid
data type error — it succeeds, advances the cursor, and leaves the
destination slot untouched.  Only `DUCKDB_TYPE_INVALID` triggers the error;
every other unrecognized tag falls through the switch silently. -/
theorem rowsNext_c5_cex :
    rowsNext ⟨some c5res, 0⟩ [OutVal.oBool false] =
      (.ok [OutVal.oBool false], ⟨some c5res, 1⟩) ∧
    (rowsNext ⟨some c5res, 0⟩ [OutVal.oBool false]).1 ≠ NextRes.errInvalidType :=
  ⟨rfl, by decide⟩

/-- C5 amended: if some column carries the INVALID tag, `Next` fails with
the invalid data type error and the cursor is not advanced; with no INVALID
tag the row read succeeds and advances the cursor even when other columns
carry unrecognized tags, whose destination slots are left exactly as the
caller passed them. -/
theorem rowsNext_c5_amended (r : DuckResult) (cur : Nat) (dst : List OutVal)
    (hcur : cur < r.rowCount) :
    ((∃ col ∈ r.cols, col.ty = DTy.invalid) →
      rowsNext ⟨some r, cur⟩ dst = (.errInvalidType, ⟨some r, cur⟩)) ∧
    ((∀ col ∈ r.cols, col.ty ≠ DTy.invalid) →
      rowsNext ⟨some r, cur⟩ dst =
        (.ok (decodeColsOk r.cols 0 cur dst), ⟨some r, cur + 1⟩) ∧
      ∀ (j : Nat) (hj : j < r.cols.length) (tag : Nat),
        (r.cols.get ⟨j, hj⟩).ty = DTy.other tag →
        (decodeColsOk r.cols 0 cur dst)[j]? = dst[j]?) := by
  constructor
  · intro h
    simp [rowsNext, Nat.not_le.2 hcur, decodeCols_eq_error r.cols 0 cur dst h]
  · intro h
    refine ⟨by simp [rowsNext, Nat.not_le.2 hcur, decodeCols_eq_ok r.cols 0 cur dst h], ?_⟩
    intro j hj tag htag
    have hskip : tyAct ((r.cols).get ⟨j, hj⟩).ty = ColAct.skipCol := by
      rw [htag]; rfl
    have h0 := decodeColsOk_getElem?_skip r.cols 0 cur dst j hj hskip
    simpa using h0

/-- Witness for C5's amended statement: the INVALID branch errors without
advancing; the unrecognized-tag branch succeeds, advancing past it. -/
theorem rowsNext_c5_amended_witness :
    rowsNext ⟨some ⟨[⟨DTy.invalid, []⟩], 1⟩, 0⟩ [] =
      (.errInvalidType, ⟨some ⟨[⟨DTy.invalid, []⟩], 1⟩, 0⟩) ∧
    rowsNext ⟨some c5res, 0⟩ [OutVal.oBool true] =
      (.ok [OutVal.oBool true], ⟨some c5res, 1⟩) := by
  constructor
  · exact (rowsNext_c5_amended ⟨[⟨DTy.invalid, []⟩], 1⟩ 0 [] (by decide)).1 (by decide)
  · exact (((rowsNext_c5_amended c5res 0 [OutVal.oBool true] (by decide)).2
      (by decide)).1).trans (by decide)

/-- C6: the statement state machine — `Close` with an open cursor returns a
usage error and changes nothing; `Close` on an already-closed statement
returns a usage error; `Exec`/`Query` on a closed statement, and on a
statement with an open cursor, are rejected as loud usage errors (driver
panics with the misuse messages); closing a cursor tied to the statement
clears the `rows` flag, after which `Close` succeeds and a fresh
`Exec`/`Query` passes the guards (is not rejected as a usage error). -/
theorem stmt_c6 :
    (∀ st : StmtState, st.rows = true → stmtClose st = (.err msgCloseActiveRows, st)) ∧
    (∀ st : StmtState, st.rows = false → st.closed = true →
      stmtClose st = (.err msgDoubleClose, st)) ∧
    (∀ (st : StmtState) (np : Nat) (bindOk : Nat → DVal → Bool)
        (execRes : Except String DuckResult) (args : List DVal), st.closed = true →
      stmtExec st np bindOk execRes args = (.panicked msgExecAfterClose, st) ∧
      stmtQuery st np bindOk execRes args = (.panicked msgQueryAfterClose, st)) ∧
    (∀ (st : StmtState) (np : Nat) (bindOk : Nat → DVal → Bool)
        (execRes : Except String DuckResult) (args : List DVal),
        st.closed = false → st.rows = true →
      stmtExec st np bindOk execRes args = (.panicked msgExecActiveRows, st) ∧
      stmtQuery st np bindOk execRes args = (.panicked msgQueryActiveRows, st)) ∧
    (∀ (rs : RowsState) (r : DuckResult) (st : StmtState),
        rs.res = some r → st.closed = false →
      (rowsClose rs (some st)).2.2 = some ⟨false, false⟩ ∧
      stmtClose ⟨false, false⟩ = (.ok, ⟨true, false⟩) ∧
      (∀ (np : Nat) (bindOk : Nat → DVal → Bool) (execRes : Except String DuckResult)
          (args : List DVal) (msg : String),
        (stmtQuery (⟨false, false⟩ : StmtState) np bindOk execRes args).1 ≠ .panicked msg ∧
        (stmtExec (⟨false, false⟩ : StmtState) np bindOk execRes args).1 ≠ .panicked msg)) := by
  refine ⟨?_, ?_, ?_, ?_, ?_⟩
  · intro st h
    simp [stmtClose, h]
  · intro st h hc
    simp [stmtClose, h, hc]
  · intro st np bindOk execRes args h
    constructor
    · simp [stmtExec, h]
    · simp [stmtQuery, h]
  · intro st np bindOk execRes args hc h
    constructor
    · simp [stmtExec, h, hc]
    · simp [stmtQuery, h, hc]
  · intro rs r st hres hc
    refine ⟨?_, rfl, ?_⟩
    · cases st
      simp_all [rowsClose]
    · intro np bindOk execRes args msg
      constructor
      · cases h1 : (stmtStart np bindOk args).1 <;> cases execRes <;>
          simp [stmtQuery, h1]
      · cases h1 : (stmtStart np bindOk args).1 <;> cases execRes <;>
          simp [stmtExec, h1]

/-- Witness for C6: concrete states for each guard, and the
cursor-close-then-statement-close sequence at a concrete result. -/
theorem stmt_c6_witness :
    stmtClose ⟨false, true⟩ = (.err msgCloseActiveRows, ⟨false, true⟩) ∧
    stmtClose ⟨true, false⟩ = (.err msgDoubleClose, ⟨true, false⟩) ∧
    stmtQuery ⟨true, false⟩ 0 allBindsOk (.ok ⟨[], 0⟩) [] =
      (.panicked msgQueryAfterClose, ⟨true, false⟩) ∧
    stmtExec ⟨false, true⟩ 0 allBindsOk (.ok ⟨[], 0⟩) [] =
      (.panicked msgExecActiveRows, ⟨false, true⟩) ∧
    (rowsClose ⟨some ⟨[], 0⟩, 0⟩ (some ⟨false, true⟩)).2.2 = some ⟨false, false⟩ ∧
    stmtClose ⟨false, false⟩ = (.ok, ⟨true, false⟩) :=
  ⟨stmt_c6.1 ⟨false, true⟩ rfl,
   stmt_c6.2.1 ⟨true, false⟩ rfl rfl,
   (stmt_c6.2.2.1 ⟨true, false⟩ 0 allBindsOk (.ok ⟨[], 0⟩) [] rfl).2,
   (stmt_c6.2.2.2.1 ⟨false, true⟩ 0 allBindsOk (.ok ⟨[], 0⟩) [] rfl rfl).1,
   (stmt_c6.2.2.2.2 ⟨some ⟨[], 0⟩, 0⟩ ⟨[], 0⟩ ⟨false, true⟩ rfl rfl).1,
   (stmt_c6.2.2.2.2 ⟨some ⟨[], 0⟩, 0⟩ ⟨[], 0⟩ ⟨false, true⟩ rfl rfl).2.1⟩

/-- C8: on the typed-bind path, an argument list whose length differs from
the statement's parameter count makes `stmt.start` fail with the arity
error carrying the actual (`have`) and expected (`want`) counts — the Go
message names both — and the recorded native bind trace is empty (no bind
call is attempted); on the interpolation path a placeholder-count mismatch
yields `driver.ErrSkip`, the try-the-other-path signal. -/
theorem arity_c8 (np : Nat) (bindOk : Nat → DVal → Bool) (args : List DVal)
    (q : List Char) :
    (args.length ≠ np →
      stmtStart np bindOk args = (.arityMismatch args.length np, []) ∧
      arityMsg args.length np =
        "incorrect argument count for command: have " ++ toString args.length ++
          " want " ++ toString np) ∧
    (countQ q ≠ args.length → interpolateParams q args = .error .skip) := by
  constructor
  · intro h
    exact ⟨by simp [stmtStart, Ne.symm h], rfl⟩
  · intro h
    simp [interpolateParams, h]

/-- Witness for C8: two parameters, one argument, and a three-placeholder
query against that one argument. -/
theorem arity_c8_witness :
    stmtStart 2 allBindsOk [DVal.vInt64 1] = (.arityMismatch 1 2, []) ∧
    interpolateParams ("???".data) [DVal.vInt64 1] = .error .skip :=
  ⟨((arity_c8 2 allBindsOk [DVal.vInt64 1] ("???".data)).1 (by decide)).1,
   (arity_c8 2 allBindsOk [DVal.vInt64 1] ("???".data)).2 (by decide)⟩

/-- The binding loop reports the skip signal whenever the argument list has
an unrecognized-kind entry after a bindable prefix whose native binds
succeed. -/
theorem startGo_skip (bindOk : Nat → DVal → Bool) (post : List DVal)
    (hb : ∀ i a, bindOk i a = true) :
    ∀ (pre : List DVal), (∀ a ∈ pre, isBindable a = true) →
      ∀ (i : Nat) (trace : List (Nat × DVal)),
        (startGo bindOk (pre ++ DVal.vOther :: post) i trace).1 = .skip := by
  intro pre
  induction pre with
  | nil =>
    intro _ i trace
    simp [startGo, isBindable]
  | cons a pre ih =>
    intro h i trace
    have ha : isBindable a = true := h a (List.mem_cons_self _ _)
    have hpre : ∀ x ∈ pre, isBindable x = true :=
      fun x hx => h x (List.mem_cons_of_mem _ hx)
    simp [startGo, ha, hb (i + 1) a, ih hpre]

/-- The interpolation scan reports the skip signal when, with matching
placeholder count, the argument list has an unrecognized-kind entry after a
renderable prefix. -/
theorem scanInterp_skip (post : List DVal) :
    ∀ (q : List Char) (pre : List DVal),
      countQ q = (pre ++ DVal.vOther :: post).length →
      (∀ a ∈ pre, (renderArg a).isSome) →
      scanInterp q (pre ++ DVal.vOther :: post) = .error .skip := by
  intro q
  induction q with
  | nil =>
    intro pre hlen _
    simp [countQ, List.length_append] at hlen
    omega
  | cons c rest ih =>
    intro pre hlen hsup
    by_cases hc : c = '?'
    · subst hc
      cases pre with
      | nil => simp [scanInterp, renderArg]
      | cons p pre' =>
        have hp : (renderArg p).isSome := hsup p (List.mem_cons_self _ _)
        obtain ⟨lit, hlit⟩ := Option.isSome_iff_exists.1 hp
        have hsup' : ∀ a ∈ pre', (renderArg a).isSome :=
          fun a ha => hsup a (List.mem_cons_of_mem _ ha)
        have hlen' : countQ rest = (pre' ++ DVal.vOther :: post).length := by
          simp [countQ, List.length_append] at hlen ⊢
          omega
        simp [scanInterp, hlit, ih pre' hlen' hsup']
    · have hlen' : countQ rest = (pre ++ DVal.vOther :: post).length := by
        simpa [countQ, hc] using hlen
      simp [scanInterp, hc, ih pre hlen' hsup]

/-- C9: an argument of a kind outside the supported set (the type-switch
`default` in both `stmt.start` and `conn.interpolateParams`) makes both
paths report `driver.ErrSkip` — a skip/defer signal, not a hard error —
abandoning the whole attempt when the scan reaches that argument. -/
theorem skip_c9 (np : Nat) (bindOk : Nat → DVal → Bool) (pre post : List DVal)
    (q : List Char) :
    ((pre ++ DVal.vOther :: post).length = np →
      (∀ a ∈ pre, isBindable a = true) → (∀ i a, bindOk i a = true) →
      (stmtStart np bindOk (pre ++ DVal.vOther :: post)).1 = .skip) ∧
    (countQ q = (pre ++ DVal.vOther :: post).length →
      (∀ a ∈ pre, (renderArg a).isSome) →
      interpolateParams q (pre ++ DVal.vOther :: post) = .error .skip) := by
  constructor
  · intro hlen hpre hb
    simp only [stmtStart, hlen, ne_eq, not_true_eq_false, if_false, ite_false]
    exact startGo_skip bindOk post hb pre hpre 0 []
  · intro hq hsup
    simp [interpolateParams, hq, scanInterp_skip post q pre hq hsup]

/-- Witness for C9: a bindable int64 argument followed by an unsupported
one, against two parameters and a two-placeholder query. -/
theorem skip_c9_witness :
    (stmtStart 2 allBindsOk [DVal.vInt64 1, DVal.vOther]).1 = .skip ∧
    interpolateParams ("??".data) [DVal.vInt64 1, DVal.vOther] = .error .skip :=
  ⟨(skip_c9 2 allBindsOk [DVal.vInt64 1] [] ("??".data)).1 (by decide) (by decide)
      (fun _ _ => rfl),
   (skip_c9 2 allBindsOk [DVal.vInt64 1] [] ("??".data)).2 (by decide) (by decide)⟩

/-- Splitting a query on `?` always yields at least one segment. -/
theorem splitQ_ne_nil (q : List Char) : splitQ q ≠ [] := by
  cases q with
  | nil => simp [splitQ]
  | cons c rest =>
    by_cases hc : c = '?'
    · simp [splitQ, hc]
    · cases h : splitQ rest with
      | nil => simp [splitQ, hc, h]
      | cons s ss => simp [splitQ, hc, h]

/-- No segment produced by splitting on `?` contains a `?`. -/
theorem countQ_of_mem_splitQ (q : List Char) :
    ∀ s ∈ splitQ q, countQ s = 0 := by
  induction q with
  | nil =>
    intro s hs
    simp [splitQ] at hs
    simp [hs, countQ]
  | cons c rest ih =>
    intro s hs
    by_cases hc : c = '?'
    · simp [splitQ, hc] at hs
      rcases hs with hs | hs
      · simp [hs, countQ]
      · exact ih s hs
    · cases h : splitQ rest with
      | nil => exact absurd h (splitQ_ne_nil rest)
      | cons s0 ss =>
        simp [splitQ, hc, h] at hs
        rcases hs with hs | hs
        · have h0 : countQ s0 = 0 := ih s0 (by rw [h]; exact List.mem_cons_self _ _)
          simp [hs, countQ, hc, h0]
        · exact ih s (by rw [h]; exact List.mem_cons_of_mem _ hs)

/-- A query with `n` placeholders splits into `n + 1` segments. -/
theorem splitQ_length (q : List Char) : (splitQ q).length = countQ q + 1 := by
  induction q with
  | nil => simp [splitQ, countQ]
  | cons c rest ih =>
    by_cases hc : c = '?'
    · simp [splitQ, hc, countQ, ih]
      omega
    · cases h : splitQ rest with
      | nil => exact absurd h (splitQ_ne_nil rest)
      | cons s0 ss =>
        have h2 := ih
        rw [h] at h2
        simp only [List.length_cons] at h2
        simp [splitQ, hc, h, countQ, List.length_cons]
        omega

/-- Interleaving distributes a head character of the first segment. -/
theorem joinI_cons_head (c : Char) (seg : List Char) (more lits : List (List Char)) :
    joinI ((c :: seg) :: more) lits = c :: joinI (seg :: more) lits := by
  cases lits <;> simp [joinI]

/-- The placeholder count of a concatenation. -/
theorem countQ_append (a b : List Char) :
    countQ (a ++ b) = countQ a + countQ b := by
  induction a with
  | nil => simp [countQ]
  | cons c rest ih =>
    simp [countQ, ih]
    omega

/-- With matching placeholder count and renderable arguments, the scan of
`interpolateParams` succeeds, consumes every argument, and produces exactly
the query's segments interleaved with one rendering per argument in
placeholder order. -/
theorem scanInterp_ok :
    ∀ (q : List Char) (args : List DVal),
      countQ q = args.length →
      (∀ a ∈ args, (renderArg a).isSome) →
      scanInterp q args =
        .ok (joinI (splitQ q) (args.map (fun a => (renderArg a).getD [])), []) := by
  intro q
  induction q with
  | nil =>
    intro args hlen _
    have hargs : args = [] := List.length_eq_zero.1 (by simp [countQ] at hlen; omega)
    subst hargs
    simp [scanInterp, splitQ, joinI]
  | cons c rest ih =>
    intro args hlen hsup
    by_cases hc : c = '?'
    · subst hc
      cases args with
      | nil => simp [countQ] at hlen
      | cons a more =>
        have ha := hsup a (List.mem_cons_self _ _)
        obtain ⟨lit, hlit⟩ := Option.isSome_iff_exists.1 ha
        have hmore : ∀ x ∈ more, (renderArg x).isSome :=
          fun x hx => hsup x (List.mem_cons_of_mem _ hx)
        have hlen' : countQ rest = more.length := by
          simp [countQ] at hlen
          omega
        simp [scanInterp, hlit, ih more hlen' hmore, splitQ, joinI]
    · have hlen' : countQ rest = args.length := by simpa [countQ, hc] using hlen
      cases h : splitQ rest with
      | nil => exact absurd h (splitQ_ne_nil rest)
      | cons s0 ss =>
        have hih := ih args hlen' hsup
        rw [h] at hih
        simp [scanInterp, hc, hih, splitQ, h, joinI_cons_head]

/-- The `?` count of an interleaving is the sum over the substituted
literals, since the segments carry none. -/
theorem countQ_joinI :
    ∀ (segs lits : List (List Char)),
      (∀ s ∈ segs, countQ s = 0) →
      segs.length = lits.length + 1 →
      countQ (joinI segs lits) = (lits.map countQ).sum := by
  intro segs
  induction segs with
  | nil =>
    intro lits _ h
    simp at h
  | cons seg more ih =>
    intro lits hz hlen
    have hseg : countQ seg = 0 := hz seg (List.mem_cons_self _ _)
    have hmore : ∀ s ∈ more, countQ s = 0 :=
      fun s hs => hz s (List.mem_cons_of_mem _ hs)
    cases lits with
    | nil =>
      have hm : more = [] := by
        cases more with
        | nil => rfl
        | cons x xs => simp at hlen
      subst hm
      simp [joinI, hseg, countQ_append, countQ]
    | cons lit lits' =>
      have hlen' : more.length = lits'.length + 1 := by
        simp at hlen
        omega
      simp [joinI, countQ_append, hseg, ih lits' hmore hlen']

/-- C7: with exactly as many `?` placeholders as arguments, all of
recognized kinds, `interpolateParams` succeeds and returns precisely the
query's segments interleaved with one literal rendering per argument in
left-to-right placeholder order (`renderArg`: null → NULL, integers →
decimal, bool → 1/0, time → Unix seconds, float → its carried shortest
round-trip text, string → the quoted escaped fragment); the `?` characters
remaining in the output are exactly those inside the substituted literals.
With a differing count it signals `driver.ErrSkip` and nothing else. -/
theorem interpolateParams_c7 (query : List Char) (args : List DVal) :
    (countQ query = args.length → (∀ a ∈ args, (renderArg a).isSome) →
      interpolateParams query args =
        .ok (joinI (splitQ query) (args.map (fun a => (renderArg a).getD []))) ∧
      countQ (joinI (splitQ query) (args.map (fun a => (renderArg a).getD []))) =
        (args.map (fun a => countQ ((renderArg a).getD []))).sum) ∧
    (countQ query ≠ args.length → interpolateParams query args = .error .skip) := by
  constructor
  · intro hlen hsup
    constructor
    · simp [interpolateParams, hlen, scanInterp_ok query args hlen hsup]
    · have hlen2 : (splitQ query).length =
          (args.map (fun a => (renderArg a).getD [])).length + 1 := by
        simp [splitQ_length, hlen]
      have h := countQ_joinI (splitQ query) (args.map fun a => (renderArg a).getD [])
        (countQ_of_mem_splitQ query) hlen2
      rw [h, List.map_map]
      rfl
  · intro h
    simp [interpolateParams, h]

/-- C7 counterexample for the literal reading of "zero `?` characters
remaining": a text argument containing a `?` leaves that `?` inside its
quoted literal in the output. -/
theorem interpolateParams_c7_cex :
    interpolateParams ("?".data) [DVal.vString ("?".data)] = .ok ("'?'".data) ∧
    countQ ("'?'".data) = 1 :=
  ⟨rfl, rfl⟩

/-- Witness for C7: one placeholder, one int64 argument. -/
theorem interpolateParams_c7_witness :
    interpolateParams ("ab?cd".data) [DVal.vInt64 42] = .ok ("ab42cd".data) :=
  (((interpolateParams_c7 ("ab?cd".data) [DVal.vInt64 42]).1
      (by decide) (by decide)).1).trans rfl

end GoDuckDB
